import Mathlib

/-!
Shallow embedding of `facts/analyze_odm_reconstruction.py` (the
ReconciliationReporter of the spec): data model, the shot-dictionary
construction, the reconstructed/dropped partition in `main`, the Markdown
drop report, the control flow of the map renderer, and the top-level run.

Modelling conventions:
* JSON numbers / CPython floats are modelled as exact rationals (`ℚ`).
  The concrete values exercised by the properties below (0.005, 0.3, 2.0,
  coordinates) behave identically under IEEE double arithmetic and under
  exact rational arithmetic.
* Optional JSON fields (`altitude`, `exposure_time`, `iso_speed`,
  `fnumber`) are `Option` fields, matching `img.get(...)` in the source.
* Code that can raise is embedded in `Except String`; an uncaught Python
  exception is an `.error`.
-/

namespace AnalyzeOdm

/-- An element of the `images.json` input manifest (InputImageRecord).
`filename`, `latitude`, `longitude` are required; the camera metadata and
altitude are optional, as in the source's `img.get(...)` accesses. -/
structure InputImage where
  filename : String
  latitude : ℚ
  longitude : ℚ
  altitude : Option ℚ := none
  exposure_time : Option ℚ := none
  iso_speed : Option Int := none
  fnumber : Option ℚ := none
  deriving DecidableEq

/-- One feature of `odm_report/shots.geojson`: `properties.filename`,
`properties.translation` and `geometry.coordinates = [lon, lat]`. -/
structure ShotFeature where
  filename : String
  lon : ℚ
  lat : ℚ
  translation : ℚ × ℚ × ℚ
  deriving DecidableEq

/-- The value stored in the shot mapping by `load_reconstructed_shots`:
`{lon, lat, translation}`. -/
structure ShotVal where
  lon : ℚ
  lat : ℚ
  translation : ℚ × ℚ × ℚ
  deriving DecidableEq

/-- Python `key in dict` for the shot mapping (modelled as an
insertion-ordered association list). -/
def hasKey (m : List (String × ShotVal)) (s : String) : Bool :=
  m.any (fun p => p.1 == s)

/-- A Python dict store `result[k] = v`: overwrite in place when the key is
present (the entry keeps its original insertion position), else append. -/
def dictInsert (m : List (String × ShotVal)) (k : String) (v : ShotVal) :
    List (String × ShotVal) :=
  if hasKey m k then m.map (fun p => if p.1 = k then (k, v) else p)
  else m ++ [(k, v)]

/-- The loop of `load_reconstructed_shots` (source lines 45-53): build
`{filename: {lon, lat, translation}}` over the features, last write wins on
duplicate filenames. -/
def load_reconstructed_shots (features : List ShotFeature) :
    List (String × ShotVal) :=
  features.foldl
    (fun m f => dictInsert m f.filename ⟨f.lon, f.lat, f.translation⟩) []

/-- The membership test `img["filename"] in shots` used by the partition
loop in `main` (line 211): it reads only the record's filename. -/
def classify (shots : List (String × ShotVal)) (img : InputImage) : Bool :=
  hasKey shots img.filename

/-- The partition loop of `main` (lines 208-214): traverse the input
manifest in order, appending each record to `reconstructed` when its
filename is a key of the shot mapping, else to `dropped`. -/
def partitionImages (shots : List (String × ShotVal)) :
    List InputImage → List InputImage × List InputImage
  | [] => ([], [])
  | img :: rest =>
    let (r, d) := partitionImages shots rest
    if classify shots img then (img :: r, d) else (r, img :: d)

/-- Python `int(q)` on a number: truncation toward zero. -/
def pyTrunc (q : ℚ) : Int :=
  if q < 0 then ⌈q⌉ else ⌊q⌋

/-- Left-pad the decimal digits of `n` with zeros to width `k`. -/
def natPad (k : Nat) (n : Nat) : String :=
  let s := toString n
  String.mk (List.replicate (k - s.length) '0') ++ s

/-- Number of decimal digits after the point in the exact decimal expansion
of `q`: the least `k` with `q * 10^k` integral (searched up to 400, enough
for every value arising from the manifests modelled here). -/
def decExp (q : ℚ) : Nat :=
  ((List.range 400).find? (fun k => (q * (10 : ℚ) ^ k).den == 1)).getD 400

/-- CPython `str` on a non-negative float whose value is a terminating
decimal: integral values print with a trailing `.0`; otherwise the exact
decimal expansion is printed (its last digit is nonzero because the
exponent is minimal), matching the shortest round-trip repr for the
decimal-valued inputs modelled here. -/
def pyFloatStrNN (q : ℚ) : String :=
  if q.den = 1 then toString q.num ++ ".0"
  else
    let k := decExp q
    let n := (q * (10 : ℚ) ^ k).num.toNat
    toString (n / 10 ^ k) ++ "." ++ natPad k (n % 10 ^ k)

/-- CPython `str` on a float (sign handled separately). -/
def pyFloatStr (q : ℚ) : String :=
  if q < 0 then "-" ++ pyFloatStrNN (-q) else pyFloatStrNN q

/-- Round to the nearest integer, ties to even: the rounding used by
CPython float formatting. -/
def roundHalfEven (q : ℚ) : Int :=
  let f := ⌊q⌋
  let r := q - f
  if r < 1 / 2 then f
  else if 1 / 2 < r then f + 1
  else if f % 2 = 0 then f else f + 1

/-- Python `f"{x:.kf}"` for `k ≥ 1`: fixed-point with `k` digits after the
point, round-half-even, sign taken from the value. -/
def fmtFixed (k : Nat) (x : ℚ) : String :=
  let n := (roundHalfEven (|x| * (10 : ℚ) ^ k)).toNat
  let sign := if x < 0 then "-" else ""
  sign ++ toString (n / 10 ^ k) ++ "." ++ natPad k (n % 10 ^ k)

/-- The exposure column (source line 180):
`f"1/{int(1/exp)}" if exp and exp > 0 and exp < 1 else (str(exp) if exp else "")`.
`None` and `0` are falsy, so both display blank; a fraction of a second
strictly between 0 and 1 displays as the reciprocal truncated toward zero;
anything else truthy displays as `str(exp)`. -/
def exp_str (exp : Option ℚ) : String :=
  match exp with
  | none => ""
  | some e =>
    if e ≠ 0 ∧ 0 < e ∧ e < 1 then "1/" ++ toString (pyTrunc (1 / e))
    else if e ≠ 0 then pyFloatStr e
    else ""

/-- One drop-table row (source lines 183-186). Formatting
`img.get("altitude", "")` with the `:.1f` spec raises `ValueError` in
Python when altitude is absent, because the default is the string `""`;
that uncaught exception is the `.error` branch. -/
def formatRow (img : InputImage) : Except String String :=
  match img.altitude with
  | none => .error "ValueError: Unknown format code f for object of type str"
  | some alt =>
    .ok ("| " ++ img.filename
      ++ " | " ++ fmtFixed 6 img.latitude
      ++ " | " ++ fmtFixed 6 img.longitude
      ++ " | " ++ fmtFixed 1 alt
      ++ " | " ++ exp_str img.exposure_time
      ++ " | " ++ (match img.iso_speed with | none => "" | some i => toString i)
      ++ " | " ++ (match img.fnumber with | none => "" | some v => pyFloatStr v)
      ++ " |")

/-- `sorted(dropped, key=lambda x: x["filename"])` (source line 178):
stable sort by the filename string, lexicographic byte order. -/
def sortedDropped (dropped : List InputImage) : List InputImage :=
  dropped.mergeSort (fun a b => decide (a.filename ≤ b.filename))

/-- The row-appending loop of lines 178-186: format each record in turn;
the first row whose formatting raises aborts the whole function. -/
def formatRows : List InputImage → Except String (List String)
  | [] => .ok []
  | img :: rest =>
    match formatRow img with
    | .error e => .error e
    | .ok row =>
      match formatRows rest with
      | .error e => .error e
      | .ok rows => .ok (row :: rows)

/-- `render_markdown` (source lines 167-194): header with counts, one row
per dropped image in filename order, trailing image embed; the whole file
is the newline join. The first row whose formatting raises aborts the
function before the file is written. -/
def render_markdown (dropped : List InputImage) (total : Nat)
    (reconstructed_count : Nat) : Except String String :=
  match formatRows (sortedDropped dropped) with
  | .error e => .error e
  | .ok rows =>
    .ok (String.intercalate "\n"
      (["# Dropped images (" ++ toString dropped.length ++ " of "
          ++ toString total ++ ")",
        "",
        "Reconstructed: " ++ toString reconstructed_count ++ " | Dropped: "
          ++ toString dropped.length ++ " | Total: " ++ toString total,
        "",
        "Images present in `images.json` but absent from `odm_report/shots.geojson`.",
        "",
        "| Filename | Latitude | Longitude | Altitude (m) | Exposure | ISO | f/ |",
        "|----------|----------|-----------|-------------|----------|-----|----|"]
       ++ rows
       ++ ["", "![[reconstruction_status.png]]", ""]))

/-- Abstract coordinate reference system label of the orthophoto. -/
abbrev Crs := String

/-- The environment facts that determine `render_map`'s control flow around
the optional orthophoto backdrop: whether `find_ortho` finds a file, what
opening/reading/drawing it does (`src.crs` can be `None`, hence
`Option Crs`), and whether `rasterio.warp.transform` succeeds. -/
structure MapEnv where
  orthoFound : Bool
  loadOrtho : Except String (Option Crs)
  transformOk : Bool
  transformErr : String

/-- `transform_coords` (source lines 67-71) as its observable outcome:
the library call either succeeds or raises. -/
def transform_coords (env : MapEnv) : Except String Unit :=
  if env.transformOk then .ok () else .error env.transformErr

/-- Which plotting path `render_map` finished in. -/
inductive RenderMode
  | ortho
  | fallback
  deriving DecidableEq

/-- Outcome of `render_map`: `.ok mode` means the function ran to
completion (and wrote the PNG); `.error` is an uncaught exception, in which
case no PNG is written. `warnings` are the messages printed to stderr. -/
structure MapResult where
  outcome : Except String RenderMode
  warnings : List String

/-- Control flow of `render_map` (source lines 74-164). The try/except of
lines 84-105 catches every error from loading the backdrop, logs
`"Warning: could not load ortho: ..."` and leaves `use_ortho = False`. The
`transform_coords` calls of lines 112 and 135 are outside any try block:
called only when the respective group is non-empty, and an error there
propagates out of `render_map`. -/
def render_map (env : MapEnv) (reconstructed dropped : List InputImage) :
    MapResult :=
  let loaded :=
    if env.orthoFound then
      match env.loadOrtho with
      | .ok crs => (true, crs, ([] : List String))
      | .error e => (false, none, ["Warning: could not load ortho: " ++ e])
    else (false, none, [])
  let useOrtho := loaded.1
  let orthoCrs := loaded.2.1
  let warns := loaded.2.2
  if useOrtho && orthoCrs.isSome then
    match (if reconstructed.isEmpty then Except.ok () else transform_coords env) with
    | .error e => ⟨.error e, warns⟩
    | .ok _ =>
      match (if dropped.isEmpty then Except.ok () else transform_coords env) with
      | .error e => ⟨.error e, warns⟩
      | .ok _ => ⟨.ok .ortho, warns⟩
  else ⟨.ok .fallback, warns⟩

/-- The two manifest files `main` reads, `none` when the file does not
exist on disk. -/
structure Fs where
  imagesJson : Option (List InputImage)
  shotsGeojson : Option (List ShotFeature)
  deriving DecidableEq

/-- Path of the input manifest checked by `load_input_images`. -/
def imagesPath (odmDir : String) : String := odmDir ++ "/images.json"

/-- Path of the reconstruction manifest checked by
`load_reconstructed_shots`. -/
def shotsPath (odmDir : String) : String :=
  odmDir ++ "/odm_report/shots.geojson"

/-- Observable outcome of one process run: exit code, stdout and stderr
lines, which of the two artifacts were written, and the uncaught exception
if the run crashed (CPython exits 1 on an uncaught exception). -/
structure RunOutcome where
  exitCode : Nat
  stdout : List String
  stderr : List String
  pngWritten : Bool
  mdWritten : Bool
  uncaught : Option String
  deriving DecidableEq

/-- `main` (source lines 197-221) plus the `sys.exit(1)` calls inside the
two loaders: argument-count check, the two existence checks (in order:
`images.json` then `odm_report/shots.geojson`), the partition, the summary
print, then the two renderers; each render error is an uncaught exception
that stops the run before the remaining artifact is written. -/
def main_run (argv : List String) (fs : Fs) (env : MapEnv) : RunOutcome :=
  if argv.length ≠ 3 then
    ⟨1, [],
      ["Usage: analyze_odm_reconstruction.py <odm_output_dir> <output_dir>"],
      false, false, none⟩
  else
    let odmDir := argv.getD 1 ""
    let outputDir := argv.getD 2 ""
    match fs.imagesJson with
    | none => ⟨1, [], ["Not found: " ++ imagesPath odmDir], false, false, none⟩
    | some all_images =>
      match fs.shotsGeojson with
      | none => ⟨1, [], ["Not found: " ++ shotsPath odmDir], false, false, none⟩
      | some features =>
        let shots := load_reconstructed_shots features
        let parts := partitionImages shots all_images
        let summary := "Total: " ++ toString all_images.length
          ++ ", Reconstructed: " ++ toString parts.1.length
          ++ ", Dropped: " ++ toString parts.2.length
        let mr := render_map env parts.1 parts.2
        match mr.outcome with
        | .error e => ⟨1, [summary], mr.warnings, false, false, some e⟩
        | .ok _ =>
          let mapLine := "Map: " ++ outputDir ++ "/reconstruction_status.png"
          match render_markdown parts.2 all_images.length parts.1.length with
          | .error e =>
            ⟨1, [summary, mapLine], mr.warnings, true, false, some e⟩
          | .ok _ =>
            ⟨0, [summary, mapLine,
                 "Markdown: " ++ outputDir ++ "/dropped-images.md"],
              mr.warnings, true, true, none⟩

/-- Sample input record: fully populated. -/
def imgA : InputImage := ⟨"a.jpg", 1, 2, some 3, some (5 / 1000), some 100, some (28 / 10)⟩

/-- Sample input record: optional fields all absent, as permitted by the
manifest format. -/
def imgB : InputImage := ⟨"b.jpg", 10, 20, none, none, none, none⟩

/-- Sample input record with altitude present. -/
def imgC : InputImage := ⟨"c.jpg", 5, 6, some (5 / 2), none, none, none⟩

/-- Sample shot feature matching `imgA`. -/
def shotA : ShotFeature := ⟨"a.jpg", 1, 2, (0, 0, 0)⟩

/-- Sample shot feature matching `imgC`. -/
def shotC : ShotFeature := ⟨"c.jpg", 5, 6, (1, 1, 1)⟩

/-- Environment with no orthophoto on disk: `find_ortho` returns `None`. -/
def envNone : MapEnv := ⟨false, Except.error "unused", true, ""⟩

/-! ## Helper lemmas -/

/-- The partition loop is the pair of order-preserving filters by the
membership test. -/
theorem partitionImages_eq_filter (shots : List (String × ShotVal)) (l : List InputImage) :
    partitionImages shots l =
      (l.filter (classify shots), l.filter (fun i => !(classify shots i))) := by
  induction l with
  | nil => rfl
  | cons img rest ih =>
    simp only [partitionImages, ih, List.filter]
    cases h : classify shots img <;> simp [h]

/-- Key membership distributes over dict append. -/
theorem hasKey_append (m₁ m₂ : List (String × ShotVal)) (s : String) :
    hasKey (m₁ ++ m₂) s = (hasKey m₁ s || hasKey m₂ s) := by
  simp [hasKey, List.any_append]

/-- Filtering along a projected key: only the projection matters for the
length. -/
theorem length_filter_comp {α β : Type} (f : α → β) (q : β → Bool) (l : List α) :
    (l.filter (fun a => q (f a))).length = ((l.map f).filter q).length := by
  induction l with
  | nil => rfl
  | cons a l ih =>
    cases h : q (f a) <;> simp [List.filter, h, ih]

/-- Counting the elements of a duplicate-free list that lie in a
duplicate-free sublist gives that sublist's length. -/
theorem length_filter_mem_of_nodup (L S : List String) (hL : L.Nodup) (hS : S.Nodup)
    (hsub : ∀ s ∈ S, s ∈ L) :
    (L.filter (fun n => decide (n ∈ S))).length = S.length := by
  induction L generalizing S with
  | nil =>
    have hS0 : S = [] :=
      List.eq_nil_iff_forall_not_mem.mpr (fun s hs => (List.not_mem_nil s) (hsub s hs))
    simp [hS0]
  | cons a L ih =>
    have haL : a ∉ L := (List.nodup_cons.mp hL).1
    have hLnd : L.Nodup := (List.nodup_cons.mp hL).2
    by_cases ha : a ∈ S
    · have hpos : 0 < S.length := List.length_pos_of_mem ha
      have hrw : L.filter (fun n => decide (n ∈ S)) =
          L.filter (fun n => decide (n ∈ S.erase a)) := by
        apply List.filter_congr
        intro n hn
        have hna : n ≠ a := fun h => haL (h ▸ hn)
        simp [hS.mem_erase_iff, hna]
      have hsub' : ∀ s ∈ S.erase a, s ∈ L := by
        intro s hs
        rcases hS.mem_erase_iff.mp hs with ⟨hne, hsS⟩
        rcases List.mem_cons.mp (hsub s hsS) with h | h
        · exact absurd h hne
        · exact h
      have hlen := ih (S.erase a) hLnd (hS.erase a) hsub'
      have hstep : (a :: L).filter (fun n => decide (n ∈ S)) =
          a :: L.filter (fun n => decide (n ∈ S.erase a)) := by
        rw [List.filter_cons]
        simp [ha, hrw]
      rw [hstep, List.length_cons, hlen, List.length_erase_of_mem ha]
      omega
    · have hsub' : ∀ s ∈ S, s ∈ L := by
        intro s hs
        rcases List.mem_cons.mp (hsub s hs) with h | h
        · exact absurd (h ▸ hs) ha
        · exact h
      have hstep : (a :: L).filter (fun n => decide (n ∈ S)) =
          L.filter (fun n => decide (n ∈ S)) := by
        rw [List.filter_cons]
        simp [ha]
      rw [hstep]
      exact ih S hLnd hS hsub'

/-- The two filters of a partition account for every element. -/
theorem length_filter_add_not {α : Type} (p : α → Bool) (l : List α) :
    (l.filter p).length + (l.filter (fun a => !(p a))).length = l.length := by
  induction l with
  | nil => rfl
  | cons a l ih =>
    cases h : p a <;> simp [List.filter, h] <;> omega

/-- When no filename repeats, the dict built by `load_reconstructed_shots`
never overwrites: the fold is a plain append of one entry per feature. -/
theorem load_foldl_eq (features : List ShotFeature) :
    ∀ acc : List (String × ShotVal),
      (∀ f ∈ features, hasKey acc f.filename = false) →
      (features.map ShotFeature.filename).Nodup →
      features.foldl
          (fun m f => dictInsert m f.filename ⟨f.lon, f.lat, f.translation⟩) acc =
        acc ++ features.map (fun f => (f.filename, ⟨f.lon, f.lat, f.translation⟩)) := by
  induction features with
  | nil => intro acc _ _; simp
  | cons f fs ih =>
    intro acc hacc hnd
    have hkey : hasKey acc f.filename = false := hacc f (List.mem_cons_self f fs)
    have hins : dictInsert acc f.filename ⟨f.lon, f.lat, f.translation⟩ =
        acc ++ [(f.filename, (⟨f.lon, f.lat, f.translation⟩ : ShotVal))] := by
      unfold dictInsert
      rw [if_neg (by simp [hkey])]
    have hnotin : f.filename ∉ fs.map ShotFeature.filename :=
      (List.nodup_cons.mp (by simpa using hnd)).1
    have hnd' : (fs.map ShotFeature.filename).Nodup :=
      (List.nodup_cons.mp (by simpa using hnd)).2
    have hacc' : ∀ g ∈ fs,
        hasKey (acc ++ [(f.filename, (⟨f.lon, f.lat, f.translation⟩ : ShotVal))])
          g.filename = false := by
      intro g hg
      rw [hasKey_append]
      have h1 : hasKey acc g.filename = false := hacc g (List.mem_cons_of_mem f hg)
      have h2 : hasKey [(f.filename, (⟨f.lon, f.lat, f.translation⟩ : ShotVal))]
          g.filename = false := by
        simp only [hasKey, List.any_cons, List.any_nil, Bool.or_false, beq_eq_false_iff_ne]
        exact fun h => hnotin (h ▸ List.mem_map_of_mem ShotFeature.filename hg)
      rw [h1, h2]
      rfl
    simp only [List.foldl_cons, hins]
    rw [ih _ hacc' hnd']
    simp

/-- The shot dict built from duplicate-free features is one entry per
feature, in manifest order. -/
theorem load_eq_of_nodup (features : List ShotFeature)
    (hnd : (features.map ShotFeature.filename).Nodup) :
    load_reconstructed_shots features =
      features.map (fun f => (f.filename, ⟨f.lon, f.lat, f.translation⟩)) := by
  unfold load_reconstructed_shots
  have h := load_foldl_eq features [] (fun f _ => rfl) hnd
  simpa using h

/-- Membership in the shot dict is exactly occurrence among the manifest's
filenames. -/
theorem hasKey_load_iff (features : List ShotFeature)
    (hnd : (features.map ShotFeature.filename).Nodup) (s : String) :
    hasKey (load_reconstructed_shots features) s = true ↔
      s ∈ features.map ShotFeature.filename := by
  rw [load_eq_of_nodup features hnd]
  simp only [hasKey, List.any_eq_true, List.mem_map, beq_iff_eq]
  constructor
  · rintro ⟨p, ⟨f, hf, rfl⟩, hps⟩
    exact ⟨f, hf, hps⟩
  · rintro ⟨f, hf, rfl⟩
    exact ⟨(f.filename, ⟨f.lon, f.lat, f.translation⟩), ⟨f, hf, rfl⟩, rfl⟩

/-! ## Claim theorems -/

/-- C1: for every input manifest with unique filenames and every
reconstruction manifest (duplicate-free, as well-formedness requires) whose
K filenames all occur verbatim in the input set, the partition computed by
`main` puts each input record into exactly one of the Reconstructed or
Dropped groups, with Reconstructed-count + Dropped-count = N and
Reconstructed-count = K. -/
theorem partition_exactly_one_and_counts
    (all : List InputImage) (features : List ShotFeature)
    (hin : (all.map InputImage.filename).Nodup)
    (hfe : (features.map ShotFeature.filename).Nodup)
    (hsub : ∀ f ∈ features, f.filename ∈ all.map InputImage.filename) :
    (∀ img ∈ all,
      (img ∈ (partitionImages (load_reconstructed_shots features) all).1 ∧
       img ∉ (partitionImages (load_reconstructed_shots features) all).2) ∨
      (img ∈ (partitionImages (load_reconstructed_shots features) all).2 ∧
       img ∉ (partitionImages (load_reconstructed_shots features) all).1)) ∧
    (partitionImages (load_reconstructed_shots features) all).1.length +
      (partitionImages (load_reconstructed_shots features) all).2.length
      = all.length ∧
    (partitionImages (load_reconstructed_shots features) all).1.length
      = features.length := by
  rw [partitionImages_eq_filter]
  refine ⟨?_, length_filter_add_not _ all, ?_⟩
  · intro img hmem
    by_cases hc : classify (load_reconstructed_shots features) img = true
    · left
      refine ⟨List.mem_filter.mpr ⟨hmem, hc⟩, fun hd => ?_⟩
      have hneg := (List.mem_filter.mp hd).2
      rw [hc] at hneg
      exact absurd hneg (by simp)
    · right
      refine ⟨List.mem_filter.mpr ⟨hmem, by simp [Bool.not_eq_true] at hc ⊢; exact hc⟩,
        fun hr => hc (List.mem_filter.mp hr).2⟩
  · have h1 : all.filter (classify (load_reconstructed_shots features)) =
        all.filter (fun a => hasKey (load_reconstructed_shots features) a.filename) := rfl
    have h2 := length_filter_comp InputImage.filename
      (hasKey (load_reconstructed_shots features)) all
    have h3 : (all.map InputImage.filename).filter
          (hasKey (load_reconstructed_shots features)) =
        (all.map InputImage.filename).filter
          (fun n => decide (n ∈ features.map ShotFeature.filename)) := by
      apply List.filter_congr
      intro n _
      by_cases hm : n ∈ features.map ShotFeature.filename
      · rw [(hasKey_load_iff features hfe n).mpr hm, decide_eq_true hm]
      · have hne : hasKey (load_reconstructed_shots features) n = false := by
          rw [← Bool.not_eq_true]
          exact fun hc => hm ((hasKey_load_iff features hfe n).mp hc)
        rw [hne, decide_eq_false hm]
    have hsub' : ∀ s ∈ features.map ShotFeature.filename,
        s ∈ all.map InputImage.filename := by
      rintro s hs
      rcases List.mem_map.mp hs with ⟨f, hf, rfl⟩
      exact hsub f hf
    have h4 := length_filter_mem_of_nodup (all.map InputImage.filename)
      (features.map ShotFeature.filename) hin hfe hsub'
    rw [h1, h2, h3, h4, List.length_map]

/-- C1 witness: the spec's own scenario — three inputs a.jpg, b.jpg, c.jpg,
shots for a.jpg and c.jpg: each record lands in exactly one group,
2 + 1 = 3 and Reconstructed-count = 2. -/
theorem partition_exactly_one_and_counts_witness :
    ((([imgA, imgB, imgC].map InputImage.filename).Nodup) ∧
     (([shotA, shotC].map ShotFeature.filename).Nodup) ∧
     (∀ f ∈ [shotA, shotC], f.filename ∈ [imgA, imgB, imgC].map InputImage.filename)) ∧
    ((partitionImages (load_reconstructed_shots [shotA, shotC]) [imgA, imgB, imgC]).1.length +
      (partitionImages (load_reconstructed_shots [shotA, shotC]) [imgA, imgB, imgC]).2.length = 3 ∧
     (partitionImages (load_reconstructed_shots [shotA, shotC]) [imgA, imgB, imgC]).1.length = 2) := by
  have hin : ([imgA, imgB, imgC].map InputImage.filename).Nodup := by
    decide
  have hfe : ([shotA, shotC].map ShotFeature.filename).Nodup := by
    decide
  have hsub : ∀ f ∈ [shotA, shotC], f.filename ∈ [imgA, imgB, imgC].map InputImage.filename := by
    decide
  have h := partition_exactly_one_and_counts [imgA, imgB, imgC] [shotA, shotC] hin hfe hsub
  exact ⟨⟨hin, hfe, hsub⟩, h.2.1, h.2.2⟩

/-- C10: the partition is order-preserving — each group is a sublist (same
relative order, records unchanged) of the input manifest — and the
membership test reads only the record's filename. -/
theorem partition_order_preserving (shots : List (String × ShotVal))
    (all : List InputImage) :
    (partitionImages shots all).1.Sublist all ∧
    (partitionImages shots all).2.Sublist all ∧
    ∀ a b : InputImage, a.filename = b.filename →
      classify shots a = classify shots b := by
  rw [partitionImages_eq_filter]
  refine ⟨List.filter_sublist all, List.filter_sublist all, fun a b h => ?_⟩
  simp [classify, h]

/-- C10 witness: concrete instance — both groups are sublists of the demo
manifest, and two records sharing a filename classify identically. -/
theorem partition_order_preserving_witness :
    (partitionImages (load_reconstructed_shots [shotA]) [imgA, imgB]).1.Sublist [imgA, imgB] ∧
    classify (load_reconstructed_shots [shotA]) imgB =
      classify (load_reconstructed_shots [shotA]) ⟨"b.jpg", 99, 99, none, none, none, none⟩ := by
  have h := partition_order_preserving (load_reconstructed_shots [shotA]) [imgA, imgB]
  exact ⟨h.1, h.2.2 imgB ⟨"b.jpg", 99, 99, none, none, none, none⟩ rfl⟩

/-- C6: for every (possibly unordered) list of dropped records, the row
order used by `render_markdown` — `sorted(dropped, key=filename)` — is
lexicographically ascending by filename, and is a permutation of the
dropped records (one row each). -/
theorem dropped_rows_sorted (dropped : List InputImage) :
    List.Sorted (fun a b : InputImage => a.filename ≤ b.filename)
      (sortedDropped dropped) ∧
    (sortedDropped dropped).Perm dropped := by
  constructor
  · have htrans : ∀ a b c : InputImage,
        decide (a.filename ≤ b.filename) → decide (b.filename ≤ c.filename) →
        decide (a.filename ≤ c.filename) := by
      intro a b c hab hbc
      simp only [decide_eq_true_eq] at *
      exact le_trans hab hbc
    have htotal : ∀ a b : InputImage,
        (decide (a.filename ≤ b.filename) || decide (b.filename ≤ a.filename)) := by
      intro a b
      simp only [Bool.or_eq_true, decide_eq_true_eq]
      exact le_total _ _
    have h := List.sorted_mergeSort htrans htotal dropped
    exact h.imp (fun hab => of_decide_eq_true hab)
  · exact List.mergeSort_perm dropped _

/-- C7: Markdown generation is deterministic — two runs over identical
inputs produce identical output (the embedding of `render_markdown` depends
on nothing but its three arguments: no clock, randomness, or ambient
state). -/
theorem render_markdown_deterministic (d₁ d₂ : List InputImage)
    (t₁ t₂ r₁ r₂ : Nat) (hd : d₁ = d₂) (ht : t₁ = t₂) (hr : r₁ = r₂) :
    render_markdown d₁ t₁ r₁ = render_markdown d₂ t₂ r₂ := by
  rw [hd, ht, hr]

/-- C7 witness: two runs on the same concrete report input agree. -/
theorem render_markdown_deterministic_witness :
    ([imgC] : List InputImage) = [imgC] ∧
    render_markdown [imgC] 3 2 = render_markdown [imgC] 3 2 :=
  ⟨rfl, render_markdown_deterministic [imgC] [imgC] 3 3 2 2 rfl rfl rfl⟩

/-- C4: the exposure column displays 0.005 as "1/200", a stored 0 or an
absent value as blank, and 2.0 (at least one second) literally as "2.0",
not as a fraction. -/
theorem exposure_format_examples :
    exp_str (some (5 / 1000 : ℚ)) = "1/200" ∧
    exp_str (some (0 : ℚ)) = "" ∧
    exp_str none = "" ∧
    exp_str (some (2 : ℚ)) = "2.0" := by
  refine ⟨?_, rfl, rfl, rfl⟩
  simp only [exp_str]
  rw [if_pos (by norm_num :
    (5 / 1000 : ℚ) ≠ 0 ∧ 0 < (5 / 1000 : ℚ) ∧ (5 / 1000 : ℚ) < 1)]
  rw [show (1 : ℚ) / (5 / 1000) = 200 from by norm_num]
  rw [show pyTrunc (200 : ℚ) = 200 from by
    unfold pyTrunc
    rw [if_neg (by norm_num)]
    norm_num]
  rfl

/-- C9: for a stored exposure strictly between 0 and 1 whose reciprocal is
not an integer, the displayed denominator is the reciprocal truncated
toward zero (the floor, for a positive reciprocal), not rounded to
nearest. -/
theorem exposure_denominator_truncates (e : ℚ) (h0 : 0 < e) (h1 : e < 1)
    (hn : ((1 : ℚ) / e).den ≠ 1) :
    exp_str (some e) = "1/" ++ toString ⌊(1 : ℚ) / e⌋ := by
  have hne : e ≠ 0 := ne_of_gt h0
  have hpos : (0 : ℚ) < 1 / e := by positivity
  simp only [exp_str, if_pos (⟨hne, h0, h1⟩ : e ≠ 0 ∧ 0 < e ∧ e < 1)]
  unfold pyTrunc
  rw [if_neg (not_lt.mpr (le_of_lt hpos))]

/-- C9 witness: exposure 0.3 displays as "1/3" (1/0.3 truncated to 3),
with the hypotheses checked at 3/10. -/
theorem exposure_denominator_truncates_witness :
    (0 : ℚ) < 3 / 10 ∧ (3 / 10 : ℚ) < 1 ∧ ((1 : ℚ) / (3 / 10)).den ≠ 1 ∧
    exp_str (some (3 / 10 : ℚ)) = "1/3" := by
  have hden : ((1 : ℚ) / (3 / 10)) = mkRat 10 3 := by
    rw [Rat.mkRat_eq_div]
    norm_num
  have hne : ((1 : ℚ) / (3 / 10)).den ≠ 1 := by
    rw [hden]
    decide
  refine ⟨by norm_num, by norm_num, hne, ?_⟩
  have h := exposure_denominator_truncates (3 / 10) (by norm_num) (by norm_num) hne
  rw [h, show ⌊(1 : ℚ) / (3 / 10)⌋ = 3 from by norm_num]
  rfl

/-- C2 (evaluation at the failing input): a dropped record with absent
altitude makes `render_markdown` raise — formatting the string default of
`img.get("altitude", "")` with `:.1f` is a `ValueError` — instead of
emitting a row with a blank altitude cell as the spec requires. -/
theorem render_markdown_absent_altitude_raises :
    render_markdown [imgB] 3 2 =
      Except.error "ValueError: Unknown format code f for object of type str" := by
  have hs : sortedDropped [imgB] = [imgB] := by
    simp [sortedDropped]
  unfold render_markdown
  rw [hs]
  rfl

/-- C3 (counterexample): an error raised while reprojecting coordinates is
NOT caught — with an orthophoto loaded and a non-empty reconstructed group,
a failing `transform_coords` propagates out of `render_map` instead of
falling back. -/
theorem render_map_reproject_error_aborts :
    (render_map ⟨true, Except.ok (some "EPSG:32617"), false, "ProjError"⟩
        [imgA] []).outcome = Except.error "ProjError" :=
  rfl

/-- C3 (amended): any error raised while loading the optional orthophoto
backdrop is caught and logged as a warning, and `render_map` completes in
the fallback mode; errors raised while reprojecting, by contrast, are not
caught (see the counterexample). -/
theorem render_map_load_error_falls_back (env : MapEnv)
    (r d : List InputImage) (e : String)
    (hf : env.orthoFound = true) (hl : env.loadOrtho = Except.error e) :
    (render_map env r d).outcome = Except.ok RenderMode.fallback ∧
    (render_map env r d).warnings = ["Warning: could not load ortho: " ++ e] := by
  constructor <;> simp [render_map, hf, hl]

/-- C3 witness: a concrete unreadable backdrop — the run completes in
fallback mode with the warning logged. -/
theorem render_map_load_error_falls_back_witness :
    (⟨true, Except.error "read failed", true, ""⟩ : MapEnv).orthoFound = true ∧
    (render_map ⟨true, Except.error "read failed", true, ""⟩ [imgA] [imgB]).outcome
      = Except.ok RenderMode.fallback ∧
    (render_map ⟨true, Except.error "read failed", true, ""⟩ [imgA] [imgB]).warnings
      = ["Warning: could not load ortho: read failed"] := by
  have h := render_map_load_error_falls_back
    ⟨true, Except.error "read failed", true, ""⟩ [imgA] [imgB] "read failed" rfl rfl
  exact ⟨rfl, h.1, h.2.trans rfl⟩

/-- C5: with the argument count correct but the input manifest or the
reconstruction manifest absent, the process exits with code 1, prints a
"Not found" message referencing the missing path to stderr, and writes
neither artifact. -/
theorem missing_manifest_exits_one (argv : List String) (fs : Fs) (env : MapEnv)
    (h3 : argv.length = 3)
    (hmiss : fs.imagesJson = none ∨ fs.shotsGeojson = none) :
    (main_run argv fs env).exitCode = 1 ∧
    (main_run argv fs env).pngWritten = false ∧
    (main_run argv fs env).mdWritten = false ∧
    ∃ p : String, ("Not found: " ++ p) ∈ (main_run argv fs env).stderr ∧
      ((fs.imagesJson = none ∧ p = imagesPath (argv.getD 1 "")) ∨
       (fs.shotsGeojson = none ∧ p = shotsPath (argv.getD 1 ""))) := by
  have hne : ¬ argv.length ≠ 3 := by omega
  rcases himg : fs.imagesJson with _ | imgs
  · have hrun : main_run argv fs env =
        ⟨1, [], ["Not found: " ++ imagesPath (argv.getD 1 "")], false, false, none⟩ := by
      unfold main_run
      rw [if_neg hne, himg]
    rw [hrun]
    exact ⟨rfl, rfl, rfl, imagesPath (argv.getD 1 ""),
      List.mem_singleton.mpr rfl, Or.inl ⟨rfl, rfl⟩⟩
  · rcases hsh : fs.shotsGeojson with _ | fts
    · have hrun : main_run argv fs env =
          ⟨1, [], ["Not found: " ++ shotsPath (argv.getD 1 "")], false, false, none⟩ := by
        unfold main_run
        rw [if_neg hne, himg, hsh]
      rw [hrun]
      exact ⟨rfl, rfl, rfl, shotsPath (argv.getD 1 ""),
        List.mem_singleton.mpr rfl, Or.inr ⟨rfl, rfl⟩⟩
    · exfalso
      rcases hmiss with h | h
      · rw [himg] at h
        exact Option.some_ne_none imgs h
      · rw [hsh] at h
        exact Option.some_ne_none fts h

/-- C5 witness: both manifests absent on a correctly-invoked run — exit 1,
no artifacts, "Not found" on stderr referencing images.json. -/
theorem missing_manifest_exits_one_witness :
    (["prog", "odm", "out"] : List String).length = 3 ∧
    (main_run ["prog", "odm", "out"] ⟨none, none⟩ envNone).exitCode = 1 ∧
    (main_run ["prog", "odm", "out"] ⟨none, none⟩ envNone).pngWritten = false ∧
    (main_run ["prog", "odm", "out"] ⟨none, none⟩ envNone).mdWritten = false ∧
    ∃ p : String,
      ("Not found: " ++ p) ∈ (main_run ["prog", "odm", "out"] ⟨none, none⟩ envNone).stderr ∧
      (((⟨none, none⟩ : Fs).imagesJson = none ∧
          p = imagesPath ((["prog", "odm", "out"] : List String).getD 1 "")) ∨
       ((⟨none, none⟩ : Fs).shotsGeojson = none ∧
          p = shotsPath ((["prog", "odm", "out"] : List String).getD 1 ""))) := by
  have h := missing_manifest_exits_one ["prog", "odm", "out"] ⟨none, none⟩ envNone
    rfl (Or.inl rfl)
  exact ⟨rfl, h.1, h.2.1, h.2.2.1, h.2.2.2⟩

/-- C8: an invocation whose argument count differs from the expected two
positionals (argv length 3 with the program name) exits with code 1; a
successful run — arguments correct, both manifests present, both renders
completing — exits with code 0 having written both artifacts. -/
theorem exit_code_contract (argv : List String) (fs : Fs) (env : MapEnv) :
    (argv.length ≠ 3 → (main_run argv fs env).exitCode = 1) ∧
    (∀ (imgs : List InputImage) (fts : List ShotFeature) (m : RenderMode) (s : String),
      argv.length = 3 → fs.imagesJson = some imgs → fs.shotsGeojson = some fts →
      (render_map env (partitionImages (load_reconstructed_shots fts) imgs).1
        (partitionImages (load_reconstructed_shots fts) imgs).2).outcome
        = Except.ok m →
      render_markdown (partitionImages (load_reconstructed_shots fts) imgs).2
        imgs.length (partitionImages (load_reconstructed_shots fts) imgs).1.length
        = Except.ok s →
      (main_run argv fs env).exitCode = 0 ∧
      (main_run argv fs env).pngWritten = true ∧
      (main_run argv fs env).mdWritten = true) := by
  constructor
  · intro h
    unfold main_run
    rw [if_pos h]
  · intro imgs fts m s h3 himg hsh hmr hmd
    have hne : ¬ argv.length ≠ 3 := by omega
    refine ⟨?_, ?_, ?_⟩ <;>
      (unfold main_run
       rw [if_neg hne, himg, hsh]
       dsimp only
       rw [hmr]
       dsimp only
       rw [hmd])

set_option maxRecDepth 8192 in
/-- C8 witness: a one-argument invocation exits 1; a correct invocation on
empty manifests runs to completion and exits 0. -/
theorem exit_code_contract_witness :
    (["x"] : List String).length ≠ 3 ∧
    (main_run ["x"] ⟨none, none⟩ envNone).exitCode = 1 ∧
    (main_run ["prog", "odm", "out"] ⟨some [], some []⟩ envNone).exitCode = 0 := by
  have hmd : render_markdown [] 0 0
      = Except.ok "# Dropped images (0 of 0)\n\nReconstructed: 0 | Dropped: 0 | Total: 0\n\nImages present in `images.json` but absent from `odm_report/shots.geojson`.\n\n| Filename | Latitude | Longitude | Altitude (m) | Exposure | ISO | f/ |\n|----------|----------|-----------|-------------|----------|-----|----|\n\n![[reconstruction_status.png]]\n" := by
    have hsd : sortedDropped ([] : List InputImage) = [] := by
      simp [sortedDropped]
    unfold render_markdown
    rw [hsd]
    rfl
  refine ⟨by decide, (exit_code_contract ["x"] ⟨none, none⟩ envNone).1 (by decide), ?_⟩
  exact ((exit_code_contract ["prog", "odm", "out"] ⟨some [], some []⟩ envNone).2
    [] [] RenderMode.fallback _ rfl rfl rfl rfl hmd).1

end AnalyzeOdm
